import Mathlib

/-!
Shallow embedding of `upup/pkg/fi/cloudup/dns.go` from kops.

The file defines the data model (zones, resource record sets, the cluster
spec fields the DNS code reads) and the four functions of the source:
`findZone`, `validateDNS`, `precreateDNS` and `buildPrecreateDNSHostnames`.
The opaque DNS provider is modelled by passing its observable state (the
zone list, the per-zone record listing, the NS-lookup result, the
environment variable) as explicit inputs, and each stateful function also
returns the list of provider calls it made (`Effect`), so that frame
properties ("no provider call occurs") are statable.
-/

set_option autoImplicit false

namespace KopsDNS

/-- `strings.TrimSuffix(s, ".")`: removes one trailing `"."` when present
(stated over the character list so that it evaluates by kernel reduction). -/
def trimSuffixDot (s : String) : String :=
  if s.data.getLast? = some '.' then String.mk s.data.dropLast else s

/-- A DNS zone as exposed by the provider: `zone.ID()` and `zone.Name()`. -/
structure Zone where
  id : String
  name : String
deriving Repr, DecidableEq

/-- Errors of `findZone` (provider-handle errors are out of scope: the
provider state is passed in directly). -/
inductive FindZoneError where
  | ZoneNotFound
  | AmbiguousZone
deriving Repr, DecidableEq

/-- The match test inside `findZone`'s loop:
`id == cluster.Spec.DNSZone || name == findName` where
`findName = TrimSuffix(DNSZone, ".")` and `name = TrimSuffix(zone.Name(), ".")`. -/
def zoneMatches (dnsZone : String) (zone : Zone) : Bool :=
  zone.id == dnsZone || trimSuffixDot zone.name == trimSuffixDot dnsZone

/-- `findZone`: collect matching zones; zero matches is an error
(`ZoneNotFound`), more than one is an error (`AmbiguousZone`), otherwise
return the unique match (`matches[0]`). -/
def findZone (dnsZone : String) (zones : List Zone) : Except FindZoneError Zone :=
  let ms := zones.filter (zoneMatches dnsZone)
  if ms.length = 0 then .error .ZoneNotFound
  else if ms.length > 1 then .error .AmbiguousZone
  else
    match ms with
    | z :: _ => .ok z
    | [] => .error .ZoneNotFound

/-- A resource record set: `record.Type()`, `record.Name()`,
`record.Rrdatas()`, and the TTL. -/
structure Record where
  typ : String
  name : String
  rrdatas : List String
  ttl : Nat
deriving Repr, DecidableEq

/-- The key used in `recordsMap`: `string(record.Type()) + "::" + name`
with the name's trailing dot stripped. -/
def recordKey (r : Record) : String :=
  r.typ ++ "::" ++ trimSuffixDot r.name

/-- Lookup in the Go map built by
`for _, record := range records { recordsMap[key] = record }`:
the last record with the key wins, absent keys yield `nil` (`none`). -/
def recordsMapLookup : List Record → String → Option Record
  | [], _ => none
  | r :: rest, key =>
    match recordsMapLookup rest key with
    | some r' => some r'
    | none => if recordKey r == key then some r else none

/-- An etcd cluster member (only the `Name` field is read). -/
structure EtcdMember where
  name : String
deriving Repr, DecidableEq

/-- An etcd cluster definition (`Name`, `Members`). -/
structure EtcdCluster where
  name : String
  members : List EtcdMember
deriving Repr, DecidableEq

/-- The fields of `cluster.Spec` read by this code. -/
structure ClusterSpec where
  dnsZone : String
  masterPublicName : String
  masterInternalName : String
  etcdClusters : List EtcdCluster
deriving Repr, DecidableEq

/-- The cluster object: `ObjectMeta.Name` and the spec. -/
structure Cluster where
  objectName : String
  spec : ClusterSpec
deriving Repr, DecidableEq

-- TEST-NET-3 placeholder address and its TTL.
def PlaceholderIP : String := "203.0.113.123"

def PlaceholderTTL : Nat := 10

/-- The hostname built for one etcd cluster member in the inner loop:
`etcClusterName + "-" + etcdClusterMember.Name + dnsInternalSuffix`, where
`etcClusterName` is `"etcd-" + Name` except that `"main"` collapses to
`"etcd"` (the special case in the source). -/
def etcdHostname (dnsInternalSuffix : String) (etcdCluster : EtcdCluster)
    (m : EtcdMember) : String :=
  let etcClusterName := if etcdCluster.name == "main" then "etcd" else "etcd-" ++ etcdCluster.name
  etcClusterName ++ "-" ++ m.name ++ dnsInternalSuffix

/-- `buildPrecreateDNSHostnames`: master public name (when set), master
internal name (when set), then per etcd cluster and member the
`etcdHostname` with `dnsInternalSuffix = ".internal." + ObjectMeta.Name`. -/
def buildPrecreateDNSHostnames (cluster : Cluster) : List String :=
  let dnsInternalSuffix := ".internal." ++ cluster.objectName
  let publicPart :=
    if cluster.spec.masterPublicName != "" then [cluster.spec.masterPublicName] else []
  let internalPart :=
    if cluster.spec.masterInternalName != "" then [cluster.spec.masterInternalName] else []
  let etcdPart := cluster.spec.etcdClusters.foldr (fun etcdCluster acc =>
    (etcdCluster.members.map (etcdHostname dnsInternalSuffix etcdCluster)) ++ acc) []
  publicPart ++ internalPart ++ etcdPart

/-- Provider calls observable from outside, recorded as a trace. -/
inductive Effect where
  | ListZones
  | ListRecords
  | LookupNS
  | ChangesetApply
deriving Repr, DecidableEq

/-- What `precreateDNS` did: the records queued on the changeset
(`changeset.Add(...)`), the `created` list of hostnames, and whether
`changeset.Apply()` was invoked. -/
structure PrecreateResult where
  adds : List Record
  created : List String
  applied : Bool
deriving Repr, DecidableEq

/-- The per-hostname loop of `precreateDNS`: trim the hostname, look up
`"A::" + dnsHostname` in the records map; when a record is found (with
data, or with empty data: the alias case) skip; otherwise queue
`rrs.New(dnsHostname, []string{PlaceholderIP}, PlaceholderTTL, rrstype.A)`
and append the hostname to `created`. -/
def precreateLoop (records : List Record) : List String → List Record × List String
  | [] => ([], [])
  | dnsHostname :: rest =>
    let h := trimSuffixDot dnsHostname
    let dnsRecord := recordsMapLookup records ("A::" ++ h)
    -- found is true in both branches of the Go code: nonempty rrdatas and
    -- the empty-rrdatas (alias target) case only differ in logging
    let found := dnsRecord.isSome
    let (adds, created) := precreateLoop records rest
    if found then (adds, created)
    else (⟨"A", h, [PlaceholderIP], PlaceholderTTL⟩ :: adds, h :: created)

/-- `precreateDNS`: gated on the `DNSPreCreate` feature flag; no-op when
the hostname list is empty; otherwise resolve the zone, list its records,
queue the missing hostnames, and call `changeset.Apply()` iff `created`
is nonempty. The provider state is `zones` and `recordsOf` (the record
listing per zone); the returned trace records the provider calls. -/
def precreateDNS (dnsPreCreateEnabled : Bool) (cluster : Cluster)
    (zones : List Zone) (recordsOf : Zone → List Record) :
    Except FindZoneError PrecreateResult × List Effect :=
  if !dnsPreCreateEnabled then (.ok ⟨[], [], false⟩, [])
  else
    let dnsHostnames := buildPrecreateDNSHostnames cluster
    if dnsHostnames.length = 0 then (.ok ⟨[], [], false⟩, [])
    else
      match findZone cluster.spec.dnsZone zones with
      | .error e => (.error e, [.ListZones])
      | .ok zone =>
        let records := recordsOf zone
        let (adds, created) := precreateLoop records dnsHostnames
        if created.length ≠ 0 then
          (.ok ⟨adds, created, true⟩, [.ListZones, .ListRecords, .ChangesetApply])
        else
          (.ok ⟨adds, created, false⟩, [.ListZones, .ListRecords])

/-- Applying the changeset: the batch of queued adds becomes part of the
zone's records; nothing is deleted or mutated. -/
def applyChangeset (records adds : List Record) : List Record :=
  records ++ adds

/-- The list of normalized desired hostnames absent from the zone's record
map: what `precreateDNS` ends up creating. -/
def missingHostnames (cluster : Cluster) (records : List Record) : List String :=
  ((buildPrecreateDNSHostnames cluster).map trimSuffixDot).filter
    (fun h => (recordsMapLookup records ("A::" ++ h)).isNone)

/-- Errors of `validateDNS`. -/
inductive ValidateError where
  | ZoneError (e : FindZoneError)
  | NSLookupFailed
  | NoNSRecords
deriving Repr, DecidableEq

/-- `validateDNS`: skip entirely under private DNS; otherwise resolve the
zone, strip the trailing dot from its name and do an NS lookup
(`net.LookupNS`, modelled by the input `lookupNS`). A lookup error is
fatal; zero NS records is fatal unless the `DNS_IGNORE_NS_CHECK`
environment variable (modelled as the string `dnsIgnoreNSCheck`,
`os.Getenv` returning `""` when unset) is nonempty; one or more NS
records is success. -/
def validateDNS (usePrivateDNS : Bool) (cluster : Cluster) (zones : List Zone)
    (lookupNS : String → Except Unit (List String)) (dnsIgnoreNSCheck : String) :
    Except ValidateError Unit × List Effect :=
  if usePrivateDNS then (.ok (), [])
  else
    match findZone cluster.spec.dnsZone zones with
    | .error e => (.error (.ZoneError e), [.ListZones])
    | .ok zone =>
      let dnsName := trimSuffixDot zone.name
      match lookupNS dnsName with
      | .error _ => (.error .NSLookupFailed, [.ListZones, .LookupNS])
      | .ok ns =>
        if ns.length = 0 then
          if dnsIgnoreNSCheck == "" then (.error .NoNSRecords, [.ListZones, .LookupNS])
          else (.ok (), [.ListZones, .LookupNS])
        else (.ok (), [.ListZones, .LookupNS])

end KopsDNS

deriving instance DecidableEq for Except

namespace KopsDNS

/-! ### Helper lemmas -/

lemma trimSuffixDot_eq_self (s : String) (h : s.data.getLast? ≠ some '.') :
    trimSuffixDot s = s := by
  simp [trimSuffixDot, h]

lemma recordsMapLookup_append_isSome (l₁ l₂ : List Record) (key : String) :
    (recordsMapLookup (l₁ ++ l₂) key).isSome =
      ((recordsMapLookup l₁ key).isSome || (recordsMapLookup l₂ key).isSome) := by
  induction l₁ with
  | nil => simp [recordsMapLookup]
  | cons r rest ih =>
    simp only [List.cons_append, recordsMapLookup]
    cases h : recordsMapLookup (rest ++ l₂) key with
    | some r' =>
      cases h₁ : recordsMapLookup rest key with
      | some r₁ => simp [recordsMapLookup, h, h₁]
      | none =>
        have := ih
        rw [h, h₁] at this
        simp only [Option.isSome_some, Option.isSome_none, Bool.false_or] at this
        simp [recordsMapLookup, h, h₁, ← this]
    | none =>
      have := ih
      rw [h] at this
      simp only [Option.isSome_none] at this
      cases h₁ : recordsMapLookup rest key with
      | some r₁ =>
        rw [h₁] at this
        simp at this
      | none =>
        rw [h₁] at this
        simp only [Option.isSome_none, Bool.false_or] at this
        simp [recordsMapLookup, h, h₁, ← this]

lemma recordsMapLookup_isSome_of_mem {r : Record} {l : List Record} {key : String}
    (hmem : r ∈ l) (hkey : recordKey r = key) :
    (recordsMapLookup l key).isSome = true := by
  induction l with
  | nil => simp at hmem
  | cons r₀ rest ih =>
    simp only [recordsMapLookup]
    cases h : recordsMapLookup rest key with
    | some r' => simp
    | none =>
      rcases List.mem_cons.mp hmem with rfl | hmem'
      · simp [hkey]
      · have := ih hmem'
        rw [h] at this
        simp at this

/-- The loop of `precreateDNS` computes: `created` is the list of
normalized hostnames absent from the records map, in order and with
multiplicity, and `adds` is one placeholder `A` record per such entry. -/
lemma precreateLoop_eq (records : List Record) (hs : List String) :
    precreateLoop records hs =
      (((hs.map trimSuffixDot).filter
          (fun h => (recordsMapLookup records ("A::" ++ h)).isNone)).map
        (fun h => (⟨"A", h, [PlaceholderIP], PlaceholderTTL⟩ : Record)),
       (hs.map trimSuffixDot).filter
          (fun h => (recordsMapLookup records ("A::" ++ h)).isNone)) := by
  induction hs with
  | nil => rfl
  | cons h rest ih =>
    simp only [precreateLoop, ih, List.map_cons, List.filter_cons]
    cases hlk : recordsMapLookup records ("A::" ++ trimSuffixDot h) with
    | none => simp [hlk]
    | some r => simp [hlk]

/-- Full characterization of a `precreateDNS` run that resolves its zone
and has at least one desired hostname. -/
lemma precreateDNS_run (cluster : Cluster) (zones : List Zone)
    (recordsOf : Zone → List Record) (zone : Zone)
    (hz : findZone cluster.spec.dnsZone zones = .ok zone)
    (hne : buildPrecreateDNSHostnames cluster ≠ []) :
    precreateDNS true cluster zones recordsOf =
      (if missingHostnames cluster (recordsOf zone) = [] then
        (.ok ⟨[], [], false⟩, [.ListZones, .ListRecords])
       else
        (.ok ⟨(missingHostnames cluster (recordsOf zone)).map
                (fun h => ⟨"A", h, [PlaceholderIP], PlaceholderTTL⟩),
              missingHostnames cluster (recordsOf zone), true⟩,
         [.ListZones, .ListRecords, .ChangesetApply])) := by
  have hlen : ¬(buildPrecreateDNSHostnames cluster).length = 0 := by
    simpa [List.length_eq_zero] using hne
  have hloop : precreateLoop (recordsOf zone) (buildPrecreateDNSHostnames cluster) =
      ((missingHostnames cluster (recordsOf zone)).map
        (fun h => (⟨"A", h, [PlaceholderIP], PlaceholderTTL⟩ : Record)),
       missingHostnames cluster (recordsOf zone)) := precreateLoop_eq _ _
  by_cases hc : missingHostnames cluster (recordsOf zone) = []
  · have hc0 : ¬(missingHostnames cluster (recordsOf zone)).length ≠ 0 := by simp [hc]
    simp only [precreateDNS, Bool.not_true, Bool.false_eq_true, if_false, if_neg hlen, hz,
      hloop, if_neg hc0, if_pos hc, hc, List.map_nil]
    simp
  · have hc0 : (missingHostnames cluster (recordsOf zone)).length ≠ 0 := by
      simpa [List.length_eq_zero] using hc
    simp only [precreateDNS, Bool.not_true, Bool.false_eq_true, if_false, if_neg hlen, hz,
      hloop, if_pos hc0, if_neg hc]

end KopsDNS

namespace KopsDNS

lemma mem_etcd_foldr {l : List EtcdCluster} {suffix : String} {ec : EtcdCluster}
    {m : EtcdMember} (hec : ec ∈ l) (hm : m ∈ ec.members) :
    etcdHostname suffix ec m ∈
      l.foldr (fun e acc => e.members.map (etcdHostname suffix e) ++ acc) [] := by
  induction l with
  | nil => simp at hec
  | cons e rest ih =>
    rcases List.mem_cons.mp hec with rfl | h
    · exact List.mem_append_left _ (List.mem_map_of_mem _ hm)
    · exact List.mem_append_right _ (ih h)

/-! ### Claim theorems -/

/-- C1: a zone matches iff its raw ID equals the unnormalized target or its
name with one trailing dot stripped equals the target with one trailing dot
stripped; `findZone` returns the unique match when exactly one zone matches,
fails with `ZoneNotFound` on zero matches and with `AmbiguousZone` on two or
more matches. -/
theorem findZone_resolution (dnsZone : String) (zones : List Zone) :
    (∀ z : Zone, zoneMatches dnsZone z = true ↔
      (z.id = dnsZone ∨ trimSuffixDot z.name = trimSuffixDot dnsZone)) ∧
    ((zones.filter (zoneMatches dnsZone)).length = 0 →
      findZone dnsZone zones = .error .ZoneNotFound) ∧
    (∀ z : Zone, zones.filter (zoneMatches dnsZone) = [z] →
      findZone dnsZone zones = .ok z) ∧
    (2 ≤ (zones.filter (zoneMatches dnsZone)).length →
      findZone dnsZone zones = .error .AmbiguousZone) := by
  refine ⟨?_, ?_, ?_, ?_⟩
  · intro z; simp [zoneMatches]
  · intro h; simp [findZone, h]
  · intro z h; simp [findZone, h]
  · intro h
    have h0 : ¬(zones.filter (zoneMatches dnsZone)).length = 0 := by omega
    have h1 : (zones.filter (zoneMatches dnsZone)).length > 1 := by omega
    simp [findZone, h0, h1]

/-- Witness for `findZone_resolution` at a one-zone list matched by name. -/
theorem findZone_resolution_witness :
    ([(⟨"Z1", "example.com."⟩ : Zone)].filter (zoneMatches "example.com") =
      [⟨"Z1", "example.com."⟩]) ∧
    findZone "example.com" [⟨"Z1", "example.com."⟩] = .ok ⟨"Z1", "example.com."⟩ :=
  ⟨by decide,
   (findZone_resolution "example.com" [⟨"Z1", "example.com."⟩]).2.2.1
     ⟨"Z1", "example.com."⟩ (by decide)⟩

/-- C5: each etcd cluster member contributes the hostname
`"etcd-" + clusterName + "-" + memberName + ".internal." + objectName`,
with the prefix collapsing to `"etcd"` when the etcd cluster name is
`"main"`. -/
theorem etcd_hostname_derivation (cluster : Cluster) (ec : EtcdCluster) (m : EtcdMember)
    (hec : ec ∈ cluster.spec.etcdClusters) (hm : m ∈ ec.members) :
    etcdHostname (".internal." ++ cluster.objectName) ec m ∈
      buildPrecreateDNSHostnames cluster ∧
    etcdHostname (".internal." ++ cluster.objectName) ec m =
      (if ec.name = "main" then "etcd" else "etcd-" ++ ec.name) ++ "-" ++ m.name ++
        ".internal." ++ cluster.objectName := by
  constructor
  · unfold buildPrecreateDNSHostnames
    exact List.mem_append_right _ (mem_etcd_foldr hec hm)
  · by_cases h : ec.name = "main" <;> simp [etcdHostname, h, String.append_assoc]

/-- Witness for `etcd_hostname_derivation`: member "a" of cluster "main"
in object "foo" yields `etcd-a.internal.foo`, and member "b" of cluster
"events" yields `etcd-events-b.internal.foo`. -/
theorem etcd_hostname_derivation_witness :
    "etcd-a.internal.foo" ∈ buildPrecreateDNSHostnames
      ⟨"foo", ⟨"z", "", "", [⟨"main", [⟨"a"⟩]⟩, ⟨"events", [⟨"b"⟩]⟩]⟩⟩ ∧
    "etcd-events-b.internal.foo" ∈ buildPrecreateDNSHostnames
      ⟨"foo", ⟨"z", "", "", [⟨"main", [⟨"a"⟩]⟩, ⟨"events", [⟨"b"⟩]⟩]⟩⟩ :=
  ⟨(etcd_hostname_derivation ⟨"foo", ⟨"z", "", "", [⟨"main", [⟨"a"⟩]⟩, ⟨"events", [⟨"b"⟩]⟩]⟩⟩
      ⟨"main", [⟨"a"⟩]⟩ ⟨"a"⟩ (by decide) (by decide)).1,
   (etcd_hostname_derivation ⟨"foo", ⟨"z", "", "", [⟨"main", [⟨"a"⟩]⟩, ⟨"events", [⟨"b"⟩]⟩]⟩⟩
      ⟨"events", [⟨"b"⟩]⟩ ⟨"b"⟩ (by decide) (by decide)).1⟩

/-- C7: under private DNS, `validateDNS` succeeds immediately with an empty
provider-call trace: no zone resolution, no zone listing, no NS lookup. -/
theorem validateDNS_private_short_circuit (cluster : Cluster) (zones : List Zone)
    (lookupNS : String → Except Unit (List String)) (env : String) :
    validateDNS true cluster zones lookupNS env = (.ok (), []) := rfl

/-- C8: with the `DNSPreCreate` feature flag disabled, `precreateDNS`
returns success immediately with no provider calls; likewise when the
derived hostname list is empty. -/
theorem precreate_gate :
    (∀ (cluster : Cluster) (zones : List Zone) (recordsOf : Zone → List Record),
      precreateDNS false cluster zones recordsOf = (.ok ⟨[], [], false⟩, [])) ∧
    (∀ (cluster : Cluster) (zones : List Zone) (recordsOf : Zone → List Record),
      buildPrecreateDNSHostnames cluster = [] →
      precreateDNS true cluster zones recordsOf = (.ok ⟨[], [], false⟩, [])) := by
  constructor
  · intro cluster zones recordsOf; rfl
  · intro cluster zones recordsOf h
    simp [precreateDNS, h]

/-- Witness for `precreate_gate`: a cluster with no master names and no etcd
clusters derives no hostnames, and precreate is a silent no-op on it. -/
theorem precreate_gate_witness :
    buildPrecreateDNSHostnames ⟨"foo", ⟨"example.com", "", "", []⟩⟩ = [] ∧
    precreateDNS true ⟨"foo", ⟨"example.com", "", "", []⟩⟩ [] (fun _ => []) =
      (.ok ⟨[], [], false⟩, []) :=
  ⟨by decide, precreate_gate.2 _ [] (fun _ => []) (by decide)⟩

/-- C3: for every desired hostname occurrence absent from the zone's
records under key `"A::" + normalized hostname`, precreate queues exactly
one new `A` record with the normalized name, data `["203.0.113.123"]` and
TTL 10; the changeset is applied iff at least one record was queued, and
the apply call appears in the trace iff at least one record was queued. -/
theorem precreate_queue_spec (cluster : Cluster) (zones : List Zone)
    (recordsOf : Zone → List Record) (zone : Zone) (res : PrecreateResult)
    (tr : List Effect)
    (hz : findZone cluster.spec.dnsZone zones = .ok zone)
    (hne : buildPrecreateDNSHostnames cluster ≠ [])
    (hrun : precreateDNS true cluster zones recordsOf = (.ok res, tr)) :
    res.created = missingHostnames cluster (recordsOf zone) ∧
    res.adds = (missingHostnames cluster (recordsOf zone)).map
      (fun h => ⟨"A", h, [PlaceholderIP], PlaceholderTTL⟩) ∧
    (res.applied = true ↔ res.created ≠ []) ∧
    (Effect.ChangesetApply ∈ tr ↔ res.created ≠ []) := by
  rw [precreateDNS_run cluster zones recordsOf zone hz hne] at hrun
  by_cases hc : missingHostnames cluster (recordsOf zone) = []
  · rw [if_pos hc] at hrun
    simp only [Prod.mk.injEq, Except.ok.injEq] at hrun
    obtain ⟨h1, h2⟩ := hrun
    subst h1; subst h2
    simp [hc]
  · rw [if_neg hc] at hrun
    simp only [Prod.mk.injEq, Except.ok.injEq] at hrun
    obtain ⟨h1, h2⟩ := hrun
    subst h1; subst h2
    simp [hc]

/-- Witness for `precreate_queue_spec`: one desired hostname, empty zone:
one placeholder record queued and applied. -/
theorem precreate_queue_spec_witness :
    (precreateDNS true ⟨"foo", ⟨"example.com", "api.example.com", "", []⟩⟩
        [⟨"Z1", "example.com."⟩] (fun _ => []) =
      (.ok ⟨[⟨"A", "api.example.com", [PlaceholderIP], PlaceholderTTL⟩],
            ["api.example.com"], true⟩,
       [.ListZones, .ListRecords, .ChangesetApply])) ∧
    ((⟨[⟨"A", "api.example.com", [PlaceholderIP], PlaceholderTTL⟩],
        ["api.example.com"], true⟩ : PrecreateResult).created =
      missingHostnames ⟨"foo", ⟨"example.com", "api.example.com", "", []⟩⟩ [] ∧
     (⟨[⟨"A", "api.example.com", [PlaceholderIP], PlaceholderTTL⟩],
        ["api.example.com"], true⟩ : PrecreateResult).adds =
      (missingHostnames ⟨"foo", ⟨"example.com", "api.example.com", "", []⟩⟩ []).map
        (fun h => ⟨"A", h, [PlaceholderIP], PlaceholderTTL⟩) ∧
     ((⟨[⟨"A", "api.example.com", [PlaceholderIP], PlaceholderTTL⟩],
        ["api.example.com"], true⟩ : PrecreateResult).applied = true ↔
      (⟨[⟨"A", "api.example.com", [PlaceholderIP], PlaceholderTTL⟩],
        ["api.example.com"], true⟩ : PrecreateResult).created ≠ []) ∧
     (Effect.ChangesetApply ∈
        ([.ListZones, .ListRecords, .ChangesetApply] : List Effect) ↔
      (⟨[⟨"A", "api.example.com", [PlaceholderIP], PlaceholderTTL⟩],
        ["api.example.com"], true⟩ : PrecreateResult).created ≠ [])) :=
  ⟨by decide,
   precreate_queue_spec ⟨"foo", ⟨"example.com", "api.example.com", "", []⟩⟩
     [⟨"Z1", "example.com."⟩] (fun _ => []) ⟨"Z1", "example.com."⟩
     ⟨[⟨"A", "api.example.com", [PlaceholderIP], PlaceholderTTL⟩],
       ["api.example.com"], true⟩
     [.ListZones, .ListRecords, .ChangesetApply]
     (by decide) (by decide) (by decide)⟩

/-- C4: when the key `"A::" + normalized hostname` is present in the zone's
record map (with or without data values), no add is queued for that
hostname, and every record present before the run is still present after
the changeset is applied. -/
theorem precreate_preserves_existing (cluster : Cluster) (zones : List Zone)
    (recordsOf : Zone → List Record) (zone : Zone) (res : PrecreateResult)
    (tr : List Effect) (hostname : String)
    (hz : findZone cluster.spec.dnsZone zones = .ok zone)
    (hrun : precreateDNS true cluster zones recordsOf = (.ok res, tr))
    (hmem : hostname ∈ buildPrecreateDNSHostnames cluster)
    (hfound : (recordsMapLookup (recordsOf zone)
      ("A::" ++ trimSuffixDot hostname)).isSome = true) :
    trimSuffixDot hostname ∉ res.created ∧
    (∀ r ∈ res.adds, r.name ≠ trimSuffixDot hostname) ∧
    (∀ r ∈ recordsOf zone, r ∈ applyChangeset (recordsOf zone) res.adds) := by
  have hne : buildPrecreateDNSHostnames cluster ≠ [] := by
    intro h; rw [h] at hmem; simp at hmem
  have hnotin : trimSuffixDot hostname ∉ missingHostnames cluster (recordsOf zone) := by
    intro hin
    simp only [missingHostnames] at hin
    have h2 := (List.mem_filter.mp hin).2
    cases hcase : recordsMapLookup (recordsOf zone) ("A::" ++ trimSuffixDot hostname) with
    | none => rw [hcase] at hfound; simp at hfound
    | some r => rw [hcase] at h2; simp at h2
  rw [precreateDNS_run cluster zones recordsOf zone hz hne] at hrun
  by_cases hc : missingHostnames cluster (recordsOf zone) = []
  · rw [if_pos hc] at hrun
    simp only [Prod.mk.injEq, Except.ok.injEq] at hrun
    obtain ⟨h1, h2⟩ := hrun
    subst h1; subst h2
    exact ⟨by simp, by simp, fun r hr => List.mem_append_left _ hr⟩
  · rw [if_neg hc] at hrun
    simp only [Prod.mk.injEq, Except.ok.injEq] at hrun
    obtain ⟨h1, h2⟩ := hrun
    subst h1; subst h2
    refine ⟨hnotin, ?_, fun r hr => List.mem_append_left _ hr⟩
    intro r hr
    obtain ⟨h', hmem', rfl⟩ := List.mem_map.mp hr
    simp only [ne_eq]
    intro hname
    have hname' : h' = trimSuffixDot hostname := hname
    exact hnotin (hname' ▸ hmem')

/-- Witness for `precreate_preserves_existing`: the zone already holds an
`A` record for the desired hostname with an empty data list (the alias
case); nothing is queued and the record survives. -/
theorem precreate_preserves_existing_witness :
    (precreateDNS true ⟨"foo", ⟨"example.com", "api.example.com", "", []⟩⟩
        [⟨"Z1", "example.com."⟩] (fun _ => [⟨"A", "api.example.com.", [], 300⟩]) =
      (.ok ⟨[], [], false⟩, [.ListZones, .ListRecords])) ∧
    ((recordsMapLookup [⟨"A", "api.example.com.", [], 300⟩]
        ("A::" ++ trimSuffixDot "api.example.com")).isSome = true) ∧
    (trimSuffixDot "api.example.com" ∉ ([] : List String) ∧
     (∀ r ∈ ([] : List Record), r.name ≠ trimSuffixDot "api.example.com") ∧
     (∀ r ∈ [(⟨"A", "api.example.com.", [], 300⟩ : Record)],
       r ∈ applyChangeset [⟨"A", "api.example.com.", [], 300⟩] [])) :=
  ⟨by decide, by decide,
   precreate_preserves_existing ⟨"foo", ⟨"example.com", "api.example.com", "", []⟩⟩
     [⟨"Z1", "example.com."⟩] (fun _ => [⟨"A", "api.example.com.", [], 300⟩])
     ⟨"Z1", "example.com."⟩ ⟨[], [], false⟩ [.ListZones, .ListRecords] "api.example.com"
     (by decide) (by decide) (by decide) (by decide)⟩

/-- C6: for a cluster not on private DNS whose zone resolves, a failing NS
lookup yields `NSLookupFailed`; a successful lookup with zero NS records
yields `NoNSRecords` unless the `DNS_IGNORE_NS_CHECK` value is nonempty,
in which case validation succeeds; one or more NS records yield success
regardless of which hosts they name. -/
theorem validateDNS_ns_check (cluster : Cluster) (zones : List Zone) (zone : Zone)
    (env : String) (lookupNS : String → Except Unit (List String))
    (hz : findZone cluster.spec.dnsZone zones = .ok zone) :
    (lookupNS (trimSuffixDot zone.name) = .error () →
      (validateDNS false cluster zones lookupNS env).1 = .error .NSLookupFailed) ∧
    (lookupNS (trimSuffixDot zone.name) = .ok [] → env = "" →
      (validateDNS false cluster zones lookupNS env).1 = .error .NoNSRecords) ∧
    (lookupNS (trimSuffixDot zone.name) = .ok [] → env ≠ "" →
      (validateDNS false cluster zones lookupNS env).1 = .ok ()) ∧
    (∀ ns, lookupNS (trimSuffixDot zone.name) = .ok ns → ns ≠ [] →
      (validateDNS false cluster zones lookupNS env).1 = .ok ()) := by
  refine ⟨?_, ?_, ?_, ?_⟩
  · intro hlk; simp [validateDNS, hz, hlk]
  · intro hlk henv; simp [validateDNS, hz, hlk, henv]
  · intro hlk henv; simp [validateDNS, hz, hlk, henv]
  · intro ns hlk hns
    have hlen : ¬ns.length = 0 := by simpa [List.length_eq_zero] using hns
    simp [validateDNS, hz, hlk, hlen]

/-- Witness for `validateDNS_ns_check` covering all four branches at a
concrete resolved zone. -/
theorem validateDNS_ns_check_witness :
    (validateDNS false ⟨"foo", ⟨"example.com", "", "", []⟩⟩ [⟨"Z1", "example.com."⟩]
        (fun _ => .error ()) "").1 = .error .NSLookupFailed ∧
    (validateDNS false ⟨"foo", ⟨"example.com", "", "", []⟩⟩ [⟨"Z1", "example.com."⟩]
        (fun _ => .ok []) "").1 = .error .NoNSRecords ∧
    (validateDNS false ⟨"foo", ⟨"example.com", "", "", []⟩⟩ [⟨"Z1", "example.com."⟩]
        (fun _ => .ok []) "1").1 = .ok () ∧
    (validateDNS false ⟨"foo", ⟨"example.com", "", "", []⟩⟩ [⟨"Z1", "example.com."⟩]
        (fun _ => .ok ["ns-1.example.com."]) "").1 = .ok () :=
  ⟨(validateDNS_ns_check ⟨"foo", ⟨"example.com", "", "", []⟩⟩ [⟨"Z1", "example.com."⟩]
      ⟨"Z1", "example.com."⟩ "" (fun _ => .error ()) (by decide)).1 rfl,
   (validateDNS_ns_check ⟨"foo", ⟨"example.com", "", "", []⟩⟩ [⟨"Z1", "example.com."⟩]
      ⟨"Z1", "example.com."⟩ "" (fun _ => .ok []) (by decide)).2.1 rfl rfl,
   (validateDNS_ns_check ⟨"foo", ⟨"example.com", "", "", []⟩⟩ [⟨"Z1", "example.com."⟩]
      ⟨"Z1", "example.com."⟩ "1" (fun _ => .ok []) (by decide)).2.2.1 rfl (by decide),
   (validateDNS_ns_check ⟨"foo", ⟨"example.com", "", "", []⟩⟩ [⟨"Z1", "example.com."⟩]
      ⟨"Z1", "example.com."⟩ "" (fun _ => .ok ["ns-1.example.com."]) (by decide)).2.2.2
     ["ns-1.example.com."] rfl (by decide)⟩

/-- C10: with the zone resolved and an NS lookup returning zero records,
validation fails with `NoNSRecords` exactly when the value of
`DNS_IGNORE_NS_CHECK` is the empty string — which is what `os.Getenv`
returns both when the variable is unset and when it is set to the empty
string — and succeeds for every nonempty value. -/
theorem ns_override_empty (cluster : Cluster) (zones : List Zone) (zone : Zone)
    (lookupNS : String → Except Unit (List String)) (env : String)
    (hz : findZone cluster.spec.dnsZone zones = .ok zone)
    (hns : lookupNS (trimSuffixDot zone.name) = .ok []) :
    (validateDNS false cluster zones lookupNS env).1 =
      (if env = "" then .error .NoNSRecords else .ok ()) := by
  by_cases h : env = "" <;> simp [validateDNS, hz, hns, h]

/-- Witness for `ns_override_empty` at the empty and a nonempty override
value. -/
theorem ns_override_empty_witness :
    (validateDNS false ⟨"foo", ⟨"example.com", "", "", []⟩⟩ [⟨"Z1", "example.com."⟩]
        (fun _ => .ok []) "").1 = .error .NoNSRecords ∧
    (validateDNS false ⟨"foo", ⟨"example.com", "", "", []⟩⟩ [⟨"Z1", "example.com."⟩]
        (fun _ => .ok []) "x").1 = .ok () := by
  constructor
  · have h := ns_override_empty ⟨"foo", ⟨"example.com", "", "", []⟩⟩
      [⟨"Z1", "example.com."⟩] ⟨"Z1", "example.com."⟩ (fun _ => .ok []) ""
      (by decide) rfl
    simpa using h
  · have h := ns_override_empty ⟨"foo", ⟨"example.com", "", "", []⟩⟩
      [⟨"Z1", "example.com."⟩] ⟨"Z1", "example.com."⟩ (fun _ => .ok []) "x"
      (by decide) rfl
    simpa using h

lemma missingHostnames_after_apply (cluster : Cluster) (records : List Record)
    (hdot : ∀ h ∈ buildPrecreateDNSHostnames cluster,
      (trimSuffixDot h).data.getLast? ≠ some '.') :
    missingHostnames cluster
      (records ++ (missingHostnames cluster records).map
        (fun h => ⟨"A", h, [PlaceholderIP], PlaceholderTTL⟩)) = [] := by
  rw [missingHostnames, List.filter_eq_nil_iff]
  intro a ha
  obtain ⟨h, hh, rfl⟩ := List.mem_map.mp ha
  have hsome : (recordsMapLookup
      (records ++ (missingHostnames cluster records).map
        (fun h => (⟨"A", h, [PlaceholderIP], PlaceholderTTL⟩ : Record)))
      ("A::" ++ trimSuffixDot h)).isSome = true := by
    rw [recordsMapLookup_append_isSome]
    cases hcase : recordsMapLookup records ("A::" ++ trimSuffixDot h) with
    | some r => simp
    | none =>
      have hmem : trimSuffixDot h ∈ missingHostnames cluster records := by
        rw [missingHostnames]
        exact List.mem_filter.mpr ⟨List.mem_map_of_mem _ hh, by simp [hcase]⟩
      have hrec : (⟨"A", trimSuffixDot h, [PlaceholderIP], PlaceholderTTL⟩ : Record) ∈
          (missingHostnames cluster records).map
            (fun h => (⟨"A", h, [PlaceholderIP], PlaceholderTTL⟩ : Record)) :=
        List.mem_map_of_mem _ hmem
      have hkey : recordKey ⟨"A", trimSuffixDot h, [PlaceholderIP], PlaceholderTTL⟩ =
          "A::" ++ trimSuffixDot h := by
        show "A" ++ "::" ++ trimSuffixDot (trimSuffixDot h) = "A::" ++ trimSuffixDot h
        rw [trimSuffixDot_eq_self _ (hdot h hh),
          show ("A" ++ "::" : String) = "A::" from rfl]
      rw [recordsMapLookup_isSome_of_mem hrec hkey]
      simp
  intro hcontra
  rw [Option.isNone_iff_eq_none] at hcontra
  rw [hcontra] at hsome
  simp at hsome

/-- C2 (counterexample to the claim as stated): for the cluster whose only
desired hostname is "a.." (whose normalized form "a." still ends in a
dot), run 2's zone listing is exactly the record created by run 1, with
non-empty data, yet run 2 queues the same add again and invokes the
changeset apply. -/
theorem precreate_idempotence_cex :
    precreateDNS true ⟨"foo", ⟨"example.com", "a..", "", []⟩⟩ [⟨"Z1", "example.com"⟩]
        (fun _ => []) =
      (.ok ⟨[⟨"A", "a.", [PlaceholderIP], PlaceholderTTL⟩], ["a."], true⟩,
       [.ListZones, .ListRecords, .ChangesetApply]) ∧
    precreateDNS true ⟨"foo", ⟨"example.com", "a..", "", []⟩⟩ [⟨"Z1", "example.com"⟩]
        (fun _ => [⟨"A", "a.", [PlaceholderIP], PlaceholderTTL⟩]) =
      (.ok ⟨[⟨"A", "a.", [PlaceholderIP], PlaceholderTTL⟩], ["a."], true⟩,
       [.ListZones, .ListRecords, .ChangesetApply]) := by decide

/-- C2 (amended): precreate is idempotent for every cluster spec whose
normalized desired hostnames do not themselves end in a trailing dot:
after the records queued by run 1 are added to the zone, run 2 queues
nothing and never invokes the changeset apply. -/
theorem precreate_idempotent (cluster : Cluster) (zones : List Zone)
    (recordsOf : Zone → List Record) (res1 : PrecreateResult) (tr1 : List Effect)
    (hrun1 : precreateDNS true cluster zones recordsOf = (.ok res1, tr1))
    (hdot : ∀ h ∈ buildPrecreateDNSHostnames cluster,
      (trimSuffixDot h).data.getLast? ≠ some '.') :
    (precreateDNS true cluster zones
        (fun z => applyChangeset (recordsOf z) res1.adds)).1 = .ok ⟨[], [], false⟩ ∧
    Effect.ChangesetApply ∉
      (precreateDNS true cluster zones
        (fun z => applyChangeset (recordsOf z) res1.adds)).2 := by
  by_cases hne : buildPrecreateDNSHostnames cluster = []
  · constructor
    · simp [precreateDNS, hne]
    · simp [precreateDNS, hne]
  · cases hz : findZone cluster.spec.dnsZone zones with
    | error e =>
      exfalso
      have hlen : ¬(buildPrecreateDNSHostnames cluster).length = 0 := by
        simpa [List.length_eq_zero] using hne
      simp [precreateDNS, hlen, hz] at hrun1
    | ok zone =>
      rw [precreateDNS_run cluster zones recordsOf zone hz hne] at hrun1
      have hadds : res1.adds = (missingHostnames cluster (recordsOf zone)).map
          (fun h => ⟨"A", h, [PlaceholderIP], PlaceholderTTL⟩) := by
        by_cases hc : missingHostnames cluster (recordsOf zone) = []
        · rw [if_pos hc] at hrun1
          simp only [Prod.mk.injEq, Except.ok.injEq] at hrun1
          rw [← hrun1.1, hc]
          simp
        · rw [if_neg hc] at hrun1
          simp only [Prod.mk.injEq, Except.ok.injEq] at hrun1
          rw [← hrun1.1]
      have hm2 : missingHostnames cluster
          (applyChangeset (recordsOf zone) res1.adds) = [] := by
        rw [applyChangeset, hadds]
        exact missingHostnames_after_apply cluster (recordsOf zone) hdot
      have h2 := precreateDNS_run cluster zones
        (fun z => applyChangeset (recordsOf z) res1.adds) zone hz hne
      simp only at h2
      rw [if_pos hm2] at h2
      rw [h2]
      exact ⟨rfl, by simp⟩

/-- Witness for `precreate_idempotent`: one well-formed hostname, empty
zone; after run 1's record is added, run 2 is a no-op. -/
theorem precreate_idempotent_witness :
    (precreateDNS true ⟨"foo", ⟨"example.com", "api.example.com", "", []⟩⟩
        [⟨"Z1", "example.com."⟩] (fun _ => []) =
      (.ok ⟨[⟨"A", "api.example.com", [PlaceholderIP], PlaceholderTTL⟩],
            ["api.example.com"], true⟩,
       [.ListZones, .ListRecords, .ChangesetApply])) ∧
    (precreateDNS true ⟨"foo", ⟨"example.com", "api.example.com", "", []⟩⟩
        [⟨"Z1", "example.com."⟩]
        (fun z => applyChangeset ((fun _ => ([] : List Record)) z)
          (⟨[⟨"A", "api.example.com", [PlaceholderIP], PlaceholderTTL⟩],
            ["api.example.com"], true⟩ : PrecreateResult).adds)).1 =
      .ok ⟨[], [], false⟩ ∧
    Effect.ChangesetApply ∉
      (precreateDNS true ⟨"foo", ⟨"example.com", "api.example.com", "", []⟩⟩
        [⟨"Z1", "example.com."⟩]
        (fun z => applyChangeset ((fun _ => ([] : List Record)) z)
          (⟨[⟨"A", "api.example.com", [PlaceholderIP], PlaceholderTTL⟩],
            ["api.example.com"], true⟩ : PrecreateResult).adds)).2 :=
  ⟨by decide,
   (precreate_idempotent ⟨"foo", ⟨"example.com", "api.example.com", "", []⟩⟩
      [⟨"Z1", "example.com."⟩] (fun _ => [])
      ⟨[⟨"A", "api.example.com", [PlaceholderIP], PlaceholderTTL⟩],
        ["api.example.com"], true⟩
      [.ListZones, .ListRecords, .ChangesetApply]
      (by decide) (by decide)).1,
   (precreate_idempotent ⟨"foo", ⟨"example.com", "api.example.com", "", []⟩⟩
      [⟨"Z1", "example.com."⟩] (fun _ => [])
      ⟨[⟨"A", "api.example.com", [PlaceholderIP], PlaceholderTTL⟩],
        ["api.example.com"], true⟩
      [.ListZones, .ListRecords, .ChangesetApply]
      (by decide) (by decide)).2⟩

/-- C9 (counterexample to the claim as stated): a cluster whose master
public and internal names are the same hostname, against an empty zone,
queues two identical adds for that one distinct hostname — the changeset
holds more than one queued add per distinct hostname. -/
theorem precreate_duplicates_cex :
    (precreateDNS true ⟨"foo", ⟨"example.com", "x.example.com", "x.example.com", []⟩⟩
        [⟨"Z1", "example.com"⟩] (fun _ => [])).1 =
      .ok ⟨[⟨"A", "x.example.com", [PlaceholderIP], PlaceholderTTL⟩,
            ⟨"A", "x.example.com", [PlaceholderIP], PlaceholderTTL⟩],
           ["x.example.com", "x.example.com"], true⟩ ∧
    ¬(([⟨"A", "x.example.com", [PlaceholderIP], PlaceholderTTL⟩,
        ⟨"A", "x.example.com", [PlaceholderIP], PlaceholderTTL⟩] : List Record).filter
        (fun r => r.name == "x.example.com")).length ≤ 1 := by decide

/-- C9 (amended): duplicate desired hostnames are not de-duplicated by the
diff: the number of adds queued for a hostname equals the number of its
occurrences in the normalized desired list when its key is absent from
the zone's record map, and zero when the key is present. -/
theorem precreate_duplicates_per_occurrence (cluster : Cluster) (zones : List Zone)
    (recordsOf : Zone → List Record) (zone : Zone) (res : PrecreateResult)
    (tr : List Effect) (hostname : String)
    (hz : findZone cluster.spec.dnsZone zones = .ok zone)
    (hrun : precreateDNS true cluster zones recordsOf = (.ok res, tr)) :
    (res.adds.filter (fun r => r.name == hostname)).length =
      if (recordsMapLookup (recordsOf zone) ("A::" ++ hostname)).isNone = true then
        ((buildPrecreateDNSHostnames cluster).map trimSuffixDot).count hostname
      else 0 := by
  by_cases hne : buildPrecreateDNSHostnames cluster = []
  · have heval : precreateDNS true cluster zones recordsOf = (.ok ⟨[], [], false⟩, []) := by
      simp [precreateDNS, hne]
    rw [heval] at hrun
    simp only [Prod.mk.injEq, Except.ok.injEq] at hrun
    obtain ⟨h1, h2⟩ := hrun
    subst h1
    rw [hne]
    simp
  · rw [precreateDNS_run cluster zones recordsOf zone hz hne] at hrun
    have hadds : res.adds = (missingHostnames cluster (recordsOf zone)).map
        (fun h => ⟨"A", h, [PlaceholderIP], PlaceholderTTL⟩) := by
      by_cases hc : missingHostnames cluster (recordsOf zone) = []
      · rw [if_pos hc] at hrun
        simp only [Prod.mk.injEq, Except.ok.injEq] at hrun
        rw [← hrun.1, hc]
        simp
      · rw [if_neg hc] at hrun
        simp only [Prod.mk.injEq, Except.ok.injEq] at hrun
        rw [← hrun.1]
    rw [hadds, List.filter_map, List.length_map]
    have hcount : ((missingHostnames cluster (recordsOf zone)).filter
        ((fun r : Record => r.name == hostname) ∘
          (fun h => (⟨"A", h, [PlaceholderIP], PlaceholderTTL⟩ : Record)))).length =
        (missingHostnames cluster (recordsOf zone)).count hostname := by
      rw [← List.countP_eq_length_filter]
      rfl
    rw [hcount]
    cases hN : (recordsMapLookup (recordsOf zone) ("A::" ++ hostname)).isNone with
    | true =>
      rw [if_pos rfl, missingHostnames]
      exact List.count_filter hN
    | false =>
      rw [if_neg (by simp), missingHostnames, List.count_eq_zero]
      intro hmem
      have h2 := (List.mem_filter.mp hmem).2
      simp only at h2
      rw [hN] at h2
      simp at h2

/-- Witness for `precreate_duplicates_per_occurrence`: the duplicated
hostname is queued twice — once per occurrence. -/
theorem precreate_duplicates_per_occurrence_witness :
    (precreateDNS true ⟨"foo", ⟨"example.com", "x.example.com", "x.example.com", []⟩⟩
        [⟨"Z1", "example.com"⟩] (fun _ => []) =
      (.ok ⟨[⟨"A", "x.example.com", [PlaceholderIP], PlaceholderTTL⟩,
             ⟨"A", "x.example.com", [PlaceholderIP], PlaceholderTTL⟩],
            ["x.example.com", "x.example.com"], true⟩,
       [.ListZones, .ListRecords, .ChangesetApply])) ∧
    (((⟨[⟨"A", "x.example.com", [PlaceholderIP], PlaceholderTTL⟩,
         ⟨"A", "x.example.com", [PlaceholderIP], PlaceholderTTL⟩],
        ["x.example.com", "x.example.com"], true⟩ : PrecreateResult).adds.filter
        (fun r => r.name == "x.example.com")).length =
      if (recordsMapLookup ((fun _ : Zone => ([] : List Record)) ⟨"Z1", "example.com"⟩)
            ("A::" ++ "x.example.com")).isNone = true then
        ((buildPrecreateDNSHostnames
            ⟨"foo", ⟨"example.com", "x.example.com", "x.example.com", []⟩⟩).map
          trimSuffixDot).count "x.example.com"
      else 0) :=
  ⟨by decide,
   precreate_duplicates_per_occurrence
     ⟨"foo", ⟨"example.com", "x.example.com", "x.example.com", []⟩⟩
     [⟨"Z1", "example.com"⟩] (fun _ => []) ⟨"Z1", "example.com"⟩
     ⟨[⟨"A", "x.example.com", [PlaceholderIP], PlaceholderTTL⟩,
       ⟨"A", "x.example.com", [PlaceholderIP], PlaceholderTTL⟩],
      ["x.example.com", "x.example.com"], true⟩
     [.ListZones, .ListRecords, .ChangesetApply] "x.example.com"
     (by decide) (by decide)⟩

end KopsDNS
